import Mathlib

/-!
Shallow embedding of the federated-learning orchestration core of this
repository (files `sim_server.py` and `client_device.py`), together with
theorems settling the frozen claims about it.

Numeric metric values (Python floats) are modelled as rationals; Python
dictionaries of metrics are modelled as association lists; Python code that
can raise (KeyError on a missing dictionary key, ZeroDivisionError,
IndexError on list indexing, ValueError on int parsing) is modelled as
Option-valued, with `none` standing for the raised exception.
-/

namespace FL

/-- A Python metrics dictionary: string keys, float (here: rational) values. -/
abbrev PyDict := List (String × ℚ)

/-- A Python config dictionary as built by `fit_config`: string keys, int values. -/
abbrev Config := List (String × Nat)

/-- Python `d[k]` on a metrics dict: `some v` on a hit, `none` models KeyError. -/
def dictGet (d : PyDict) (k : String) : Option ℚ :=
  (d.find? (fun p => p.1 == k)).map Prod.snd

/-- Python `config[k]` on a config dict: `some v` on a hit, `none` models KeyError. -/
def configGet (c : Config) (k : String) : Option Nat :=
  (c.find? (fun p => p.1 == k)).map Prod.snd

/-- Constant from `sim_server.py`: `NUM_CLIENTS = 2`. -/
def NUM_CLIENTS : Nat := 2

/-- Constant from `sim_server.py`: `LOCAL_EPOCHS = 1`. -/
def LOCAL_EPOCHS : Nat := 1

/-- Constant from `sim_server.py`: `NUM_ROUNDS = 50`. -/
def NUM_ROUNDS : Nat := 50

/-- The Python list comprehension
`[num_examples * m["accuracy"] for num_examples, m in metrics]`
from `weighted_average`: a missing "accuracy" key raises KeyError (`none`). -/
def listCompAcc : List (Nat × PyDict) → Option (List ℚ)
  | [] => some []
  | p :: rest =>
    match dictGet p.2 "accuracy" with
    | none => none
    | some a =>
      match listCompAcc rest with
      | none => none
      | some l => some ((p.1 : ℚ) * a :: l)

/-- Embedding of `weighted_average` (`sim_server.py` lines 84-90):
multiplies the "accuracy" of each client by its example count, and returns
`{"accuracy": sum(accuracies) / sum(examples)}`; a zero example total
raises ZeroDivisionError in Python, modelled as `none`. -/
def weighted_average (metrics : List (Nat × PyDict)) : Option PyDict :=
  match listCompAcc metrics with
  | none => none
  | some accuracies =>
    let examples : List Nat := metrics.map (fun p => p.1)
    if examples.sum = 0 then none
    else some [("accuracy", accuracies.sum / (examples.sum : ℚ))]

/-- Embedding of `fit_config` (`sim_server.py` lines 93-103) with its
`local_epochs` parameter explicit. -/
def fit_config_full (server_round : Nat) (local_epochs : Nat) : Config :=
  [("server_round", server_round), ("local_epochs", local_epochs)]

/-- Embedding of `fit_config` as the orchestrator calls it: only the round
number is passed, so `local_epochs` takes its default value `LOCAL_EPOCHS`. -/
def fit_config (server_round : Nat) : Config :=
  fit_config_full server_round LOCAL_EPOCHS

/-- The sample-count-weighted average of accuracies as the spec words it:
`Σ_c (n_c * accuracy_c) / Σ_c n_c`. -/
def specWeightedAccuracy (results : List (Nat × ℚ)) : ℚ :=
  (results.map (fun p => (p.1 : ℚ) * p.2)).sum / (results.map (fun p => (p.1 : ℚ))).sum

/-- One labelled example: feature vector and class label. -/
abbrev Example := List ℚ × Nat

/-- A data loader, reduced to the part the core reads: its dataset
(`len(dataloader.dataset)` is the sample count reported by fit/evaluate). -/
structure DataLoader where
  dataset : List Example
deriving DecidableEq

/-- Embedding of the `CifarClient` state (`client_device.py` lines 22-27):
identity, owned model replica (flattened parameters), and the two
owned dataset partitions. -/
structure CifarClient where
  client_id : String
  netParams : List ℚ
  train_dataloader : DataLoader
  test_dataloader : DataLoader
deriving DecidableEq

/-- The observable outcome of one `CifarClient.fit` call: the mutated client,
the returned triple (parameters, numExamples, metrics), the CSV write issued
to the metrics sink, and the config dictionary as it stands after the call. -/
structure FitOutput where
  client : CifarClient
  params : List ℚ
  numExamples : Nat
  metrics : PyDict
  csvFile : String
  csvData : List (ℚ × ℚ)
  configAfter : Config
deriving DecidableEq

/-- The observable outcome of one `CifarClient.evaluate` call. -/
structure EvalOutput where
  client : CifarClient
  loss : ℚ
  numExamples : Nat
  metrics : PyDict
  csvFile : String
  csvData : List (ℚ × ℚ)
  configAfter : Config
deriving DecidableEq

/-- Modelled from the spec: the external training collaborator
`train(net, dataloader, epochs, device)` lives in `src/utils/helper_func`,
outside the provided sources; per the spec it performs gradient updates and
returns the updated model state together with a per-epoch metric list. It is
abstracted as a function from (parameters, dataloader, epochs) to
(updated parameters, per-epoch (loss, accuracy) list); the claims about
`fit` hold for every such collaborator, so it is universally quantified. -/
abbrev TrainFn := List ℚ → DataLoader → Nat → List ℚ × List (ℚ × ℚ)

/-- Modelled from the spec: the external evaluation collaborator
`test(net, dataloader, device)`, also outside the provided sources,
abstracted as a function from (parameters, dataloader) to
(loss, accuracy, per-epoch metric list). -/
abbrev TestFn := List ℚ → DataLoader → ℚ × ℚ × List (ℚ × ℚ)

/-- Embedding of `CifarClient.fit` (`client_device.py` lines 45-62):
reads `config["server_round"]` and `config["local_epochs"]` (KeyError when
absent, modelled as `none`), overwrites the net parameters, trains for
`local_epochs` epochs via the training collaborator, writes the per-epoch
metrics to the per-client CSV sink, and returns the updated parameters,
`len(self.train_dataloader.dataset)` and an empty metrics dict. -/
def CifarClient.fit (train : TrainFn) (c : CifarClient)
    (parameters : List ℚ) (config : Config) : Option FitOutput :=
  match configGet config "server_round", configGet config "local_epochs" with
  | some _, some local_epochs =>
    let c1 : CifarClient := { c with netParams := parameters }
    let tr := train parameters c1.train_dataloader local_epochs
    let c2 : CifarClient := { c1 with netParams := tr.1 }
    some { client := c2
           params := c2.netParams
           numExamples := c2.train_dataloader.dataset.length
           metrics := []
           csvFile := "client_" ++ c.client_id ++ "_train_metrics.csv"
           csvData := tr.2
           configAfter := config }
  | _, _ => none

/-- Embedding of `CifarClient.evaluate` (`client_device.py` lines 64-82):
reads `config["server_round"]`, overwrites the net parameters, runs the
evaluation collaborator over the local test set, writes the metric list to
the per-client CSV sink, and returns
(loss, `len(self.test_dataloader.dataset)`, `{"accuracy": accuracy}`). -/
def CifarClient.evaluate (testFn : TestFn) (c : CifarClient)
    (parameters : List ℚ) (config : Config) : Option EvalOutput :=
  match configGet config "server_round" with
  | some _ =>
    let c1 : CifarClient := { c with netParams := parameters }
    let r := testFn parameters c1.test_dataloader
    some { client := c1
           loss := r.1
           numExamples := c1.test_dataloader.dataset.length
           metrics := [("accuracy", r.2.1)]
           csvFile := "client_" ++ c.client_id ++ "_eval_metrics.csv"
           csvData := r.2.2
           configAfter := config }
  | none => none

/-- Python list indexing `l[i]`: non-negative indices from the front,
negative indices from the back, IndexError (`none`) outside
`-len(l) <= i < len(l)`. -/
def pyIndex (l : List α) (i : Int) : Option α :=
  if 0 ≤ i then l[i.toNat]?
  else if 0 ≤ (l.length : Int) + i then l[((l.length : Int) + i).toNat]?
  else none

/-- The numeric value of a decimal digit character, `none` on anything else. -/
def charDigit (c : Char) : Option Nat :=
  if c.toNat < 48 then none
  else if c.toNat ≤ 57 then some (c.toNat - 48) else none

/-- Left fold of decimal digits into a number, `none` on a non-digit. -/
def digitsToNat (acc : Nat) : List Char → Option Nat
  | [] => some acc
  | c :: cs =>
    match charDigit c with
    | none => none
    | some d => digitsToNat (acc * 10 + d) cs

/-- Python `int(s)` on a plain decimal string, an optional leading minus sign
followed by digits; ValueError on anything else is modelled as `none`. -/
def pyInt (s : String) : Option Int :=
  match s.data with
  | [] => none
  | c :: rest =>
    if c = '-' then
      match rest with
      | [] => none
      | _ => (digitsToNat 0 rest).map (fun n => -(n : Int))
    else (digitsToNat 0 (c :: rest)).map (fun n => (n : Int))

/-- Embedding of `client_fn_gpu` (`sim_server.py` lines 45-63). The
pre-split per-client dataset lists `client_train_datasets` and
`client_test_datasets` are produced by `load_seperate_datasets` (outside the
provided sources) and are passed here as arguments, as is the freshly
initialised network; `int(cid)` raising ValueError on a non-numeric string
and the list indexing raising IndexError are both modelled as `none`. -/
def client_fn_gpu (client_train_datasets client_test_datasets : List DataLoader)
    (net : List ℚ) (cid : String) : Option CifarClient :=
  (pyInt cid).bind (fun i =>
    match pyIndex client_train_datasets i, pyIndex client_test_datasets i with
    | some td, some ed =>
      some { client_id := cid
             netParams := net
             train_dataloader := td
             test_dataloader := ed }
    | _, _ => none)

/-- Python `random.randint(lo, hi)` (inclusive bounds), as a function of the
ambient PRNG state. -/
def randint (rng lo hi : Nat) : Nat :=
  lo + rng % (hi - lo + 1)

/-- Embedding of the client-mode entry point `main` (`client_device.py`
lines 85-99) up to the client it constructs: the client id is drawn as
`random.randint(0, 1000)` from the ambient PRNG state `rng`, which is not an
input of the run; net and dataloaders come from the model and dataset
collaborators. -/
def main_client (rng : Nat) (net : List ℚ)
    (train_dataloader test_dataloader : DataLoader) : CifarClient :=
  { client_id := toString (randint rng 0 1000)
    netParams := net
    train_dataloader := train_dataloader
    test_dataloader := test_dataloader }

/-! Concrete fixtures used to instantiate the theorems below. -/

/-- A concrete two-example data loader. -/
def dlDemo : DataLoader := ⟨[(([1, 0] : List ℚ), 0), (([0, 1] : List ℚ), 1)]⟩

/-- A concrete one-example data loader. -/
def dlDemo2 : DataLoader := ⟨[(([2, 2] : List ℚ), 1)]⟩

/-- A concrete client. -/
def cDemo : CifarClient :=
  { client_id := "7"
    netParams := [0, 0]
    train_dataloader := dlDemo
    test_dataloader := dlDemo2 }

/-- The config the orchestrator sends for round 1. -/
def cfgDemo : Config := fit_config 1

/-- A concrete training collaborator: shifts every parameter by 1 and reports
one (loss, accuracy) metric pair per epoch. -/
def trainDemo : TrainFn :=
  fun p _ epochs => (p.map (fun x => x + 1), List.replicate epochs (1, (1:ℚ)/2))

/-- A concrete evaluation collaborator. -/
def testDemo : TestFn :=
  fun _ _ => ((1:ℚ)/4, (9:ℚ)/10, [((1:ℚ)/4, (9:ℚ)/10)])

/-! Helper lemmas: a closed form for `weighted_average`. -/

lemma dictGet_single (k : String) (a : ℚ) : dictGet [(k, a)] k = some a := by
  simp [dictGet]

lemma listCompAcc_eq (metrics : List (Nat × PyDict)) :
    listCompAcc metrics =
      if metrics.all (fun p => (dictGet p.2 "accuracy").isSome) then
        some (metrics.map (fun p => (p.1 : ℚ) * (dictGet p.2 "accuracy").getD 0))
      else none := by
  induction metrics with
  | nil => rfl
  | cons p rest ih =>
    simp only [listCompAcc, List.all_cons, List.map_cons]
    cases h : dictGet p.2 "accuracy" with
    | none => simp [h]
    | some a =>
      rw [ih]
      by_cases hall : rest.all (fun p => (dictGet p.2 "accuracy").isSome) = true
      · simp [h, hall]
      · simp [h, hall]

lemma weighted_average_eq (metrics : List (Nat × PyDict)) :
    weighted_average metrics =
      if metrics.all (fun p => (dictGet p.2 "accuracy").isSome) then
        if (metrics.map Prod.fst).sum = 0 then none
        else some [("accuracy",
          (metrics.map (fun p => (p.1 : ℚ) * (dictGet p.2 "accuracy").getD 0)).sum /
            ((metrics.map Prod.fst).sum : ℚ))]
      else none := by
  rw [weighted_average, listCompAcc_eq]
  cases hall : metrics.all (fun p => (dictGet p.2 "accuracy").isSome) with
  | true => simp
  | false => simp

lemma weighted_average_map_pairs (results : List (Nat × ℚ)) :
    weighted_average (results.map (fun p => (p.1, [("accuracy", p.2)]))) =
      if (results.map Prod.fst).sum = 0 then none
      else some [("accuracy",
        (results.map (fun p => (p.1 : ℚ) * p.2)).sum /
          ((results.map Prod.fst).sum : ℚ))] := by
  have hall : (results.map (fun p => (p.1, [("accuracy", p.2)]))).all
      (fun p => (dictGet p.2 "accuracy").isSome) = true := by
    rw [List.all_eq_true]
    rintro p hp
    rw [List.mem_map] at hp
    obtain ⟨q, hq, rfl⟩ := hp
    simp [dictGet_single]
  rw [weighted_average_eq, hall]
  simp [List.map_map, Function.comp_def, dictGet_single]

lemma sum_fst_cast (results : List (Nat × ℚ)) :
    (((results.map Prod.fst).sum : ℕ) : ℚ) = (results.map (fun p => (p.1 : ℚ))).sum := by
  rw [Nat.cast_list_sum, List.map_map]
  rfl

/-- C1: for every list of evaluation results (sample count, reported
accuracy) with positive total sample count (hence non-empty), the aggregated
accuracy returned by `weighted_average` equals the sample-count-weighted
average `Σ_c (n_c * accuracy_c) / Σ_c n_c` of the client accuracies; the
witness instantiates scenario A of the spec, two clients (n=100, acc=0.8) and
(n=300, acc=0.6) aggregating to accuracy 0.65. -/
theorem weighted_average_is_spec_mean (results : List (Nat × ℚ))
    (hpos : 0 < (results.map Prod.fst).sum) :
    weighted_average (results.map (fun p => (p.1, [("accuracy", p.2)]))) =
      some [("accuracy", specWeightedAccuracy results)] := by
  rw [weighted_average_map_pairs, if_neg (by omega), specWeightedAccuracy, sum_fst_cast]

/-- Witness for C1 at scenario A of the spec: the total sample count 400 is
positive and the aggregated accuracy is 13/20 = 0.65. -/
theorem weighted_average_is_spec_mean_witness :
    0 < (([((100:Nat), (4:ℚ)/5), (300, 3/5)]).map Prod.fst).sum ∧
    weighted_average ([((100:Nat), (4:ℚ)/5), (300, 3/5)].map
        (fun p => (p.1, [("accuracy", p.2)]))) =
      some [("accuracy", (13:ℚ)/20)] := by
  refine ⟨by norm_num, ?_⟩
  rw [weighted_average_is_spec_mean [((100:Nat), (4:ℚ)/5), (300, 3/5)] (by norm_num)]
  norm_num [specWeightedAccuracy]

/-- C2 counterexample: with one client reporting (n=0, accuracy=1/2), the
total weight is zero and `weighted_average` raises ZeroDivisionError
(produces no value) instead of reporting accuracy NaN. -/
theorem weighted_average_zero_total_cex :
    weighted_average [((0:Nat), [("accuracy", (1:ℚ)/2)])] = none := by
  rw [weighted_average_eq]
  simp [dictGet_single]

/-- C2 amended: for every list of evaluation results in which the per-client
sample count is 0, metric aggregation raises (ZeroDivisionError on the zero
total weight, or KeyError even before that) and produces no value for the
round, rather than returning accuracy NaN. -/
theorem weighted_average_all_zero_raises (metrics : List (Nat × PyDict))
    (hzero : ∀ p ∈ metrics, p.1 = 0) :
    weighted_average metrics = none := by
  have hsum : (metrics.map Prod.fst).sum = 0 := by
    refine List.sum_eq_zero ?_
    rintro x hx
    rw [List.mem_map] at hx
    obtain ⟨q, hq, rfl⟩ := hx
    exact hzero q hq
  rw [weighted_average_eq]
  simp [hsum]

/-- Witness for C2 amended: a single client with sample count 0 yields no
aggregated value. -/
theorem weighted_average_all_zero_raises_witness :
    (∀ p ∈ [((0:Nat), [("accuracy", (3:ℚ)/4)])], p.1 = 0) ∧
    weighted_average [((0:Nat), [("accuracy", (3:ℚ)/4)])] = none := by
  have h : ∀ p ∈ [((0:Nat), [("accuracy", (3:ℚ)/4)])], p.1 = 0 := by simp
  exact ⟨h, weighted_average_all_zero_raises _ h⟩

/-- C4: weighted metric aggregation is order-independent: for every list of
(sample count, metrics) results and every permutation of it,
`weighted_average` returns the same result (exactly, over exact rationals). -/
theorem weighted_average_perm_invariant (m1 m2 : List (Nat × PyDict))
    (h : m1.Perm m2) : weighted_average m1 = weighted_average m2 := by
  have hall : m1.all (fun p => (dictGet p.2 "accuracy").isSome) =
      m2.all (fun p => (dictGet p.2 "accuracy").isSome) := by
    rw [Bool.eq_iff_iff, List.all_eq_true, List.all_eq_true]
    exact ⟨fun hf x hx => hf x (h.mem_iff.mpr hx), fun hf x hx => hf x (h.mem_iff.mp hx)⟩
  have hsum1 : (m1.map Prod.fst).sum = (m2.map Prod.fst).sum := (h.map Prod.fst).sum_eq
  have hsum2 : (m1.map (fun p => (p.1 : ℚ) * (dictGet p.2 "accuracy").getD 0)).sum =
      (m2.map (fun p => (p.1 : ℚ) * (dictGet p.2 "accuracy").getD 0)).sum :=
    (h.map _).sum_eq
  rw [weighted_average_eq, weighted_average_eq, hall, hsum1, hsum2]

/-- Witness for C4: swapping two concrete results leaves the aggregate
unchanged. -/
theorem weighted_average_perm_invariant_witness :
    ([((1:Nat), [("accuracy", (1:ℚ))]), (3, [("accuracy", (1:ℚ)/2)])].Perm
      [((3:Nat), [("accuracy", (1:ℚ)/2)]), (1, [("accuracy", (1:ℚ))])]) ∧
    weighted_average [((1:Nat), [("accuracy", (1:ℚ))]), (3, [("accuracy", (1:ℚ)/2)])] =
      weighted_average [((3:Nat), [("accuracy", (1:ℚ)/2)]), (1, [("accuracy", (1:ℚ))])] := by
  have h : ([((1:Nat), [("accuracy", (1:ℚ))]), (3, [("accuracy", (1:ℚ)/2)])].Perm
      [((3:Nat), [("accuracy", (1:ℚ)/2)]), (1, [("accuracy", (1:ℚ))])]) :=
    List.Perm.swap _ _ _
  exact ⟨h, weighted_average_perm_invariant _ _ h⟩

/-- C5: weighted averaging is idempotent on agreement: for every non-empty
result list with positive sample counts in which every client reports the
same accuracy `a`, the aggregated accuracy is exactly `a`. -/
theorem weighted_average_idempotent (results : List (Nat × ℚ)) (a : ℚ)
    (hne : results ≠ []) (hpos : ∀ p ∈ results, 0 < p.1)
    (hagree : ∀ p ∈ results, p.2 = a) :
    weighted_average (results.map (fun p => (p.1, [("accuracy", p.2)]))) =
      some [("accuracy", a)] := by
  have hsum : (results.map Prod.fst).sum ≠ 0 := by
    cases results with
    | nil => exact absurd rfl hne
    | cons q rest =>
      have hq : 0 < q.1 := hpos q (List.mem_cons_self q rest)
      simp only [List.map_cons, List.sum_cons]
      omega
  have hcast : (((results.map Prod.fst).sum : ℕ) : ℚ) ≠ 0 := Nat.cast_ne_zero.mpr hsum
  rw [weighted_average_map_pairs, if_neg hsum]
  have hnum : (results.map (fun p => (p.1 : ℚ) * p.2)).sum =
      (((results.map Prod.fst).sum : ℕ) : ℚ) * a := by
    have hmap : results.map (fun p => (p.1 : ℚ) * p.2) =
        results.map (fun p => (p.1 : ℚ) * a) :=
      List.map_congr_left (fun p hp => by rw [hagree p hp])
    rw [hmap, sum_fst_cast, ← List.sum_map_mul_right]
  rw [hnum, mul_comm, mul_div_assoc, div_self hcast, mul_one]

/-- Witness for C5: two clients with positive counts both reporting accuracy
2/3 aggregate to exactly 2/3. -/
theorem weighted_average_idempotent_witness :
    ([((5:Nat), (2:ℚ)/3), (7, 2/3)] ≠ []) ∧
    weighted_average ([((5:Nat), (2:ℚ)/3), (7, 2/3)].map
        (fun p => (p.1, [("accuracy", p.2)]))) =
      some [("accuracy", (2:ℚ)/3)] := by
  refine ⟨by simp, ?_⟩
  exact weighted_average_idempotent [((5:Nat), (2:ℚ)/3), (7, 2/3)] ((2:ℚ)/3)
    (by simp) (by norm_num) (by norm_num)

/-- C6: for every round number r, the per-round fit configuration maps
"server_round" to r and "local_epochs" to the configured constant
`LOCAL_EPOCHS`, the same value every round. -/
theorem fit_config_fields (server_round : Nat) :
    configGet (fit_config server_round) "server_round" = some server_round ∧
    configGet (fit_config server_round) "local_epochs" = some LOCAL_EPOCHS := by
  constructor <;> rfl

/-- C7: a `fit` call leaves the config mapping unchanged: whenever the two
keys `fit` reads are present (so the call returns instead of raising
KeyError), every key maps to the same value after the call as before it. -/
theorem fit_preserves_config (train : TrainFn) (c : CifarClient)
    (parameters : List ℚ) (config : Config)
    (h1 : (configGet config "server_round").isSome = true)
    (h2 : (configGet config "local_epochs").isSome = true) :
    ∃ out, CifarClient.fit train c parameters config = some out ∧
      ∀ k, configGet out.configAfter k = configGet config k := by
  rw [CifarClient.fit]
  cases hr : configGet config "server_round" with
  | none => rw [hr] at h1; simp at h1
  | some r =>
    cases hl : configGet config "local_epochs" with
    | none => rw [hl] at h2; simp at h2
    | some le => exact ⟨_, rfl, fun k => rfl⟩

/-- Witness for C7 at a concrete client, parameter vector and round-1
config. -/
theorem fit_preserves_config_witness :
    (configGet cfgDemo "server_round").isSome = true ∧
    (configGet cfgDemo "local_epochs").isSome = true ∧
    ∃ out, CifarClient.fit trainDemo cDemo [1, 2] cfgDemo = some out ∧
      ∀ k, configGet out.configAfter k = configGet cfgDemo k :=
  ⟨rfl, rfl, fit_preserves_config trainDemo cDemo [1, 2] cfgDemo rfl rfl⟩

/-- C3 counterexample: at a concrete call whose local training produces a
non-empty per-epoch metric list, `fit` returns an empty metrics mapping, so
the returned FitResult does not hold the epoch-level metrics. -/
theorem fit_metrics_empty_cex :
    ((CifarClient.fit trainDemo cDemo [1, 2] cfgDemo).map FitOutput.metrics =
      some []) ∧
    (trainDemo [1, 2] cDemo.train_dataloader LOCAL_EPOCHS).2 ≠ [] := by
  constructor
  · rfl
  · simp [trainDemo, LOCAL_EPOCHS]

/-- C3 amended: `fit` returns the updated parameters, the number of training
examples used, and an empty metrics mapping; the epoch-level (loss, accuracy)
metrics of the local training are written to the per-client CSV metrics sink
instead of being returned. -/
theorem fit_returns_empty_metrics (train : TrainFn) (c : CifarClient)
    (parameters : List ℚ) (config : Config) (r le : Nat)
    (h1 : configGet config "server_round" = some r)
    (h2 : configGet config "local_epochs" = some le) :
    ∃ out, CifarClient.fit train c parameters config = some out ∧
      out.params = (train parameters c.train_dataloader le).1 ∧
      out.numExamples = c.train_dataloader.dataset.length ∧
      out.metrics = [] ∧
      out.csvFile = "client_" ++ c.client_id ++ "_train_metrics.csv" ∧
      out.csvData = (train parameters c.train_dataloader le).2 := by
  rw [CifarClient.fit, h1, h2]
  exact ⟨_, rfl, rfl, rfl, rfl, rfl, rfl⟩

/-- Witness for C3 amended at a concrete call: one local epoch updates the
parameters, the sample count is the training-set size, the returned metrics
mapping is empty and the epoch metrics go to the CSV sink. -/
theorem fit_returns_empty_metrics_witness :
    configGet cfgDemo "server_round" = some 1 ∧
    configGet cfgDemo "local_epochs" = some 1 ∧
    ∃ out, CifarClient.fit trainDemo cDemo [3] cfgDemo = some out ∧
      out.params = (trainDemo [3] cDemo.train_dataloader 1).1 ∧
      out.numExamples = cDemo.train_dataloader.dataset.length ∧
      out.metrics = [] ∧
      out.csvFile = "client_" ++ cDemo.client_id ++ "_train_metrics.csv" ∧
      out.csvData = (trainDemo [3] cDemo.train_dataloader 1).2 :=
  ⟨rfl, rfl, fit_returns_empty_metrics trainDemo cDemo [3] cfgDemo 1 1 rfl rfl⟩

lemma getElem?_isSome_iff (l : List α) (n : Nat) :
    l[n]?.isSome = true ↔ n < l.length := by
  rw [Option.isSome_iff_exists]
  constructor
  · rintro ⟨a, ha⟩
    exact (List.getElem?_eq_some.mp ha).1
  · intro h
    exact ⟨l[n], List.getElem?_eq_getElem h⟩

lemma pyIndex_isSome (l : List α) (i : Int) :
    (pyIndex l i).isSome = true ↔
      (-(l.length : Int) ≤ i ∧ i < (l.length : Int)) := by
  rw [pyIndex]
  by_cases h0 : 0 ≤ i
  · rw [if_pos h0, getElem?_isSome_iff]
    omega
  · rw [if_neg h0]
    by_cases h1 : 0 ≤ (l.length : Int) + i
    · rw [if_pos h1, getElem?_isSome_iff]
      omega
    · rw [if_neg h1]
      simp only [Option.isSome_none, Bool.false_eq_true, false_iff]
      omega

lemma pyIndex_eq_of_le (l : List α) (i : Int) (h : -(l.length : Int) ≤ i) :
    pyIndex l i = l[(if 0 ≤ i then i else (l.length : Int) + i).toNat]? := by
  rw [pyIndex]
  by_cases h0 : 0 ≤ i
  · rw [if_pos h0, if_pos h0]
  · rw [if_neg h0, if_neg h0, if_pos (by omega)]

/-- C8 counterexample: two client-mode runs with identical inputs (same
network and dataloaders) but different ambient PRNG states assign different
client ids, so id assignment in the client-mode entry point is not
a deterministic function of the run inputs. -/
theorem main_client_random_id_cex :
    (main_client 0 [0] dlDemo dlDemo2).client_id ≠
      (main_client 1 [0] dlDemo dlDemo2).client_id := by
  decide

/-- C8 amended: client-id assignment is deterministic only in simulation
mode, where the factory assigns exactly the orchestrator-supplied cid (so
per-client metric log filenames are reproducible there); the client-mode
entry point instead draws its id as randint(0, 1000) from the ambient PRNG
state, which is not an input of the run. -/
theorem client_id_assignment (tds eds : List DataLoader) (net : List ℚ)
    (cid : String) (c : CifarClient)
    (h : client_fn_gpu tds eds net cid = some c) :
    c.client_id = cid ∧
    ∀ rng net2 td ed, (main_client rng net2 td ed).client_id =
      toString (randint rng 0 1000) := by
  refine ⟨?_, fun rng net2 td ed => rfl⟩
  rw [client_fn_gpu] at h
  cases hi : pyInt cid with
  | none => rw [hi] at h; exact absurd h (by simp)
  | some i =>
    rw [hi, Option.some_bind] at h
    split at h
    · injection h with h
      rw [← h]
    · exact absurd h (by simp)

/-- Witness for C8 amended: the simulation factory called with cid "0"
builds the client whose id is "0". -/
theorem client_id_assignment_witness :
    client_fn_gpu [dlDemo, dlDemo2] [dlDemo2, dlDemo] [5] "0" =
      some { client_id := "0", netParams := [5]
             train_dataloader := dlDemo, test_dataloader := dlDemo2 } ∧
    ({ client_id := "0", netParams := [5]
       train_dataloader := dlDemo, test_dataloader := dlDemo2 } :
        CifarClient).client_id = "0" := by
  have h : client_fn_gpu [dlDemo, dlDemo2] [dlDemo2, dlDemo] [5] "0" =
      some { client_id := "0", netParams := [5]
             train_dataloader := dlDemo, test_dataloader := dlDemo2 } := by
    rfl
  exact ⟨h, (client_id_assignment _ _ _ _ _ h).1⟩

/-- C9: with the dataset lists pre-split into NUM_CLIENTS = 2 per-client
entries, `client_fn_gpu` succeeds exactly for cid whose integer value i lies
in -NUM_CLIENTS ≤ i < NUM_CLIENTS (Python indexing accepts negative indices
from the back), and then the train and test dataloaders of the returned client
are the i-th entries of the two lists; outside that range the indexing
raises IndexError. -/
theorem client_fn_gpu_domain (tds eds : List DataLoader) (net : List ℚ)
    (cid : String) (i : Int)
    (hparse : pyInt cid = some i)
    (h1 : tds.length = NUM_CLIENTS) (h2 : eds.length = NUM_CLIENTS) :
    ((client_fn_gpu tds eds net cid).isSome = true ↔
      (-(NUM_CLIENTS : Int) ≤ i ∧ i < (NUM_CLIENTS : Int))) ∧
    (∀ c, client_fn_gpu tds eds net cid = some c →
      tds[(if 0 ≤ i then i else (NUM_CLIENTS : Int) + i).toNat]? =
          some c.train_dataloader ∧
      eds[(if 0 ≤ i then i else (NUM_CLIENTS : Int) + i).toNat]? =
          some c.test_dataloader) := by
  have hrt := pyIndex_isSome tds i
  have hre := pyIndex_isSome eds i
  rw [h1] at hrt
  rw [h2] at hre
  rw [client_fn_gpu, hparse, Option.some_bind]
  cases ht : pyIndex tds i with
  | none =>
    rw [ht] at hrt
    have hnr : ¬(-(NUM_CLIENTS : Int) ≤ i ∧ i < (NUM_CLIENTS : Int)) := by
      intro hr
      have := hrt.mpr hr
      simp at this
    cases he : pyIndex eds i with
    | none =>
      exact ⟨by simp [hnr], fun c hc => by simp at hc⟩
    | some ed =>
      exact ⟨by simp [hnr], fun c hc => by simp at hc⟩
  | some td =>
    rw [ht] at hrt
    have hr : -(NUM_CLIENTS : Int) ≤ i ∧ i < (NUM_CLIENTS : Int) := hrt.mp rfl
    cases he : pyIndex eds i with
    | none =>
      rw [he] at hre
      exact absurd (hre.mpr hr) (by simp)
    | some ed =>
      refine ⟨by simp [hr.1, hr.2], ?_⟩
      intro c hc
      have hc2 : some { client_id := cid, netParams := net
                        train_dataloader := td, test_dataloader := ed } = some c := hc
      injection hc2 with hc2
      have h3 := pyIndex_eq_of_le tds i (by rw [h1]; exact hr.1)
      have h4 := pyIndex_eq_of_le eds i (by rw [h2]; exact hr.1)
      rw [ht, h1] at h3
      rw [he, h2] at h4
      rw [← hc2]
      exact ⟨h3.symm, h4.symm⟩

/-- Witness for C9 at cid "-1": the integer value -1 is in range and selects
the last (index 1) entries of the two length-2 dataset lists. -/
theorem client_fn_gpu_domain_witness :
    pyInt "-1" = some (-1) ∧
    ([dlDemo, dlDemo2].length = NUM_CLIENTS) ∧
    (((client_fn_gpu [dlDemo, dlDemo2] [dlDemo2, dlDemo] [5] "-1").isSome = true ↔
      (-(NUM_CLIENTS : Int) ≤ (-1 : Int) ∧ (-1 : Int) < (NUM_CLIENTS : Int))) ∧
    (∀ c, client_fn_gpu [dlDemo, dlDemo2] [dlDemo2, dlDemo] [5] "-1" = some c →
      [dlDemo, dlDemo2][(if 0 ≤ (-1 : Int) then (-1 : Int)
          else (NUM_CLIENTS : Int) + (-1 : Int)).toNat]? = some c.train_dataloader ∧
      [dlDemo2, dlDemo][(if 0 ≤ (-1 : Int) then (-1 : Int)
          else (NUM_CLIENTS : Int) + (-1 : Int)).toNat]? = some c.test_dataloader)) := by
  refine ⟨by rfl, by rfl, ?_⟩
  exact client_fn_gpu_domain [dlDemo, dlDemo2] [dlDemo2, dlDemo] [5] "-1" (-1)
    (by rfl) (by rfl) (by rfl)

/-- C10: metric aggregation depends only on the sample count of each result and
its "accuracy" entry: a result list with some client lacking the "accuracy"
key makes `weighted_average` raise KeyError (no value); two result lists
agreeing pointwise on sample counts and "accuracy" lookups aggregate
identically, whatever other keys their dicts hold; and the client-side
`evaluate` always supplies the "accuracy" key. -/
theorem weighted_average_accuracy_only :
    (∀ m : List (Nat × PyDict), (∃ p ∈ m, dictGet p.2 "accuracy" = none) →
      weighted_average m = none) ∧
    (∀ m1 m2 : List (Nat × PyDict),
      List.Forall₂ (fun p q => p.1 = q.1 ∧
        dictGet p.2 "accuracy" = dictGet q.2 "accuracy") m1 m2 →
      weighted_average m1 = weighted_average m2) ∧
    (∀ (testFn : TestFn) (c : CifarClient) (parameters : List ℚ)
        (config : Config) (out : EvalOutput),
      CifarClient.evaluate testFn c parameters config = some out →
      dictGet out.metrics "accuracy" =
        some (testFn parameters c.test_dataloader).2.1) := by
  refine ⟨?_, ?_, ?_⟩
  · intro m hmiss
    obtain ⟨p, hp, hnone⟩ := hmiss
    have hall : ¬(m.all (fun p => (dictGet p.2 "accuracy").isSome) = true) := by
      rw [List.all_eq_true]
      intro hf
      have := hf p hp
      rw [hnone] at this
      simp at this
    rw [weighted_average_eq, if_neg hall]
  · intro m1 m2 hf
    rw [weighted_average_eq, weighted_average_eq]
    have hall : m1.all (fun p => (dictGet p.2 "accuracy").isSome) =
        m2.all (fun p => (dictGet p.2 "accuracy").isSome) := by
      induction hf with
      | nil => rfl
      | cons hpq _ ih => simp only [List.all_cons, ih, hpq.2]
    have hsum1 : (m1.map Prod.fst).sum = (m2.map Prod.fst).sum := by
      clear hall
      induction hf with
      | nil => rfl
      | cons hpq _ ih => simp only [List.map_cons, List.sum_cons, ih, hpq.1]
    have hsum2 :
        (m1.map (fun p => (p.1 : ℚ) * (dictGet p.2 "accuracy").getD 0)).sum =
        (m2.map (fun p => (p.1 : ℚ) * (dictGet p.2 "accuracy").getD 0)).sum := by
      clear hall hsum1
      induction hf with
      | nil => rfl
      | cons hpq _ ih =>
        simp only [List.map_cons, List.sum_cons, ih, hpq.1, hpq.2]
    rw [hall, hsum1, hsum2]
  · intro testFn c parameters config out h
    rw [CifarClient.evaluate] at h
    cases hr : configGet config "server_round" with
    | none => rw [hr] at h; exact absurd h (by simp)
    | some r =>
      rw [hr] at h
      injection h with h
      rw [← h]
      exact dictGet_single _ _

/-- Witness for C10: a result without the "accuracy" key aggregates to no
value; an extra "loss" key does not change the aggregate; a concrete
`evaluate` call returns a metrics dict whose "accuracy" entry is the
accuracy reported by the evaluation collaborator. -/
theorem weighted_average_accuracy_only_witness :
    weighted_average [((2:Nat), [("loss", (1:ℚ))])] = none ∧
    weighted_average [((2:Nat), [("accuracy", (1:ℚ)), ("loss", (5:ℚ))])] =
      weighted_average [((2:Nat), [("accuracy", (1:ℚ))])] ∧
    ∃ out, CifarClient.evaluate testDemo cDemo [1] cfgDemo = some out ∧
      dictGet out.metrics "accuracy" =
        some (testDemo [1] cDemo.test_dataloader).2.1 := by
  refine ⟨?_, ?_, ?_⟩
  · exact weighted_average_accuracy_only.1 [((2:Nat), [("loss", (1:ℚ))])]
      ⟨(2, [("loss", 1)]), by simp, by decide⟩
  · exact weighted_average_accuracy_only.2.1 _ _
      (List.Forall₂.cons ⟨rfl, by decide⟩ List.Forall₂.nil)
  · have he : CifarClient.evaluate testDemo cDemo [1] cfgDemo =
        some { client := { cDemo with netParams := [1] }
               loss := (1:ℚ)/4
               numExamples := 1
               metrics := [("accuracy", (9:ℚ)/10)]
               csvFile := "client_7_eval_metrics.csv"
               csvData := [((1:ℚ)/4, (9:ℚ)/10)]
               configAfter := cfgDemo } := rfl
    exact ⟨_, he, weighted_average_accuracy_only.2.2 testDemo cDemo [1] cfgDemo _ he⟩

end FL
